import Mathlib

/-!
# Verification of the ffmpeg mp3→wav converter pipeline

A shallow embedding, in Lean 4, of the decision-and-conversion pipeline of
`converter_app.py`: filename sanitization, collision resolution, audio
probing, encode-parameter selection, filter-chain fallback, and per-file
success/failure bookkeeping.  External effects (the filesystem, the ffmpeg
and ffprobe subprocesses) are passed in explicitly as oracles; pure Python
logic is translated function by function.  Python string/character
semantics (Unicode `isalnum`, `lower`, `int()`, `pathlib.Path.suffix`) are
modelled over the code points this program actually handles: ASCII, the
Latin-1 Supplement, and the basic Cyrillic rows.
-/

/-- `pre` is a prefix of `s` (Python `str.startswith`), computed
structurally on the character lists so the kernel can evaluate it. -/
def strStartsWith (s pre : String) : Bool :=
  pre.data.isPrefixOf s.data

/-- Strip leading and trailing whitespace from a character list. -/
def pyStripWs (cs : List Char) : List Char :=
  ((cs.dropWhile Char.isWhitespace).reverse.dropWhile Char.isWhitespace).reverse

/-- Python `int(s)` on a decimal string: optional surrounding whitespace,
optional sign, then a nonempty run of ASCII digits; `none` where Python
raises `ValueError`.  (Underscore digit grouping, accepted by Python, is
not produced by ffprobe/ffmpeg and is not modelled.) -/
def pyParseIntString (s : String) : Option Int :=
  let t := pyStripWs s.data
  let neg := t.take 1 = ['-']
  let core := if t.take 1 = ['-'] ∨ t.take 1 = ['+'] then t.drop 1 else t
  if core ≠ [] ∧ core.all Char.isDigit then
    let n : Nat := core.foldl (fun acc c => 10 * acc + (c.toNat - 48)) 0
    if neg then some (-(n : Int)) else some (n : Int)
  else none

/-- `ConversionWorker._parse_int`: `int(value)` with `TypeError`/`ValueError`
downgraded to `None`; the value is either absent or a string here. -/
def _parse_int (value : Option String) : Option Int :=
  match value with
  | none => none
  | some s => pyParseIntString s

/-- Python `str.lower` on one character, restricted to the code points this
development uses (ASCII, Latin-1 Supplement letters, basic Cyrillic rows);
identity on every other code point. -/
def pyCharLower (c : Char) : Char :=
  let n := c.toNat
  if 65 ≤ n ∧ n ≤ 90 then Char.ofNat (n + 32)
  else if 0xC0 ≤ n ∧ n ≤ 0xDE ∧ n ≠ 0xD7 then Char.ofNat (n + 32)
  else if 0x410 ≤ n ∧ n ≤ 0x42F then Char.ofNat (n + 32)
  else if 0x400 ≤ n ∧ n ≤ 0x40F then Char.ofNat (n + 80)
  else c

/-- Python `str.lower` on a string (see `pyCharLower`). -/
def pyStrLower (s : String) : String :=
  String.mk (s.data.map pyCharLower)

/-- Python `str.rfind "."` over a character list: the highest index holding
`'.'`, or `-1` when there is none. -/
def rfindDotAux : List Char → Nat → Int → Int
  | [], _, acc => acc
  | c :: rest, i, acc => rfindDotAux rest (i + 1) (if c = '.' then (i : Int) else acc)

/-- The characters after the last `'/'` (the path's final component, for a
path with no trailing slash). -/
def lastComponent (cs : List Char) : List Char :=
  cs.foldl (fun acc c => if c = '/' then [] else acc ++ [c]) []

/-- `pathlib.Path(p).suffix` for a POSIX path with no trailing slash (the
only shape this program builds): the final `"."`-segment of the last path
component, or `""` when the last dot is leading, trailing or absent. -/
def pySuffix (p : String) : String :=
  let cs := lastComponent p.data
  let i := rfindDotAux cs 0 (-1)
  if 0 < i ∧ i < (cs.length : Int) - 1 then String.mk (cs.drop i.toNat) else ""

/-- Python `str.lstrip "."`: drop every leading `'.'`. -/
def lstripDots (s : String) : String :=
  String.mk (s.data.dropWhile (fun c => c = '.'))

/-- The character-for-character Cyrillic→Latin table that
`ConversionWorker.transliterate` builds with `str.maketrans`: the 33
lowercase letters `а`..`я` (with `ё`) and their 33 uppercase partners, in
the order of the two literal strings in the source. -/
def translitPairs : List (Char × Char) :=
  [('а', 'a'), ('б', 'b'), ('в', 'v'), ('г', 'g'), ('д', 'd'), ('е', 'e'),
   ('ё', 'e'), ('ж', 'j'), ('з', 'z'), ('и', 'i'), ('й', 'j'), ('к', 'k'),
   ('л', 'l'), ('м', 'm'), ('н', 'n'), ('о', 'o'), ('п', 'p'), ('р', 'r'),
   ('с', 's'), ('т', 't'), ('у', 'u'), ('ф', 'f'), ('х', 'h'), ('ц', 'z'),
   ('ч', 'c'), ('ш', 's'), ('щ', 's'), ('ъ', '_'), ('ы', 'y'), ('ь', '_'),
   ('э', 'e'), ('ю', 'u'), ('я', 'a'),
   ('А', 'A'), ('Б', 'B'), ('В', 'V'), ('Г', 'G'), ('Д', 'D'), ('Е', 'E'),
   ('Ё', 'E'), ('Ж', 'J'), ('З', 'Z'), ('И', 'I'), ('Й', 'J'), ('К', 'K'),
   ('Л', 'L'), ('М', 'M'), ('Н', 'N'), ('О', 'O'), ('П', 'P'), ('Р', 'R'),
   ('С', 'S'), ('Т', 'T'), ('У', 'U'), ('Ф', 'F'), ('Х', 'H'), ('Ц', 'Z'),
   ('Ч', 'C'), ('Ш', 'S'), ('Щ', 'S'), ('Ъ', '_'), ('Ы', 'Y'), ('Ь', '_'),
   ('Э', 'E'), ('Ю', 'U'), ('Я', 'A')]

/-- One character under `str.translate` with the table above: mapped if it
is a key, unchanged otherwise. -/
def translitChar (c : Char) : Char :=
  match translitPairs.lookup c with
  | some t => t
  | none => c

/-- `ConversionWorker.transliterate`: a single character-for-character
substitution pass over the string. -/
def transliterate (text : String) : String :=
  String.mk (text.data.map translitChar)

/-- Python `str.isalnum` on one character, restricted to the code points
this development uses: ASCII digits and letters, Latin-1 Supplement
letters (`0xC0`–`0xFF` minus the two operator signs `×`, `÷`), and the
Cyrillic-block letters (`0x400`–`0x481`, `0x48A`–`0x4FF`); false on every
other modelled code point. -/
def pyIsAlnum (c : Char) : Bool :=
  let n := c.toNat
  decide ((48 ≤ n ∧ n ≤ 57) ∨ (65 ≤ n ∧ n ≤ 90) ∨ (97 ≤ n ∧ n ≤ 122) ∨
    (0xC0 ≤ n ∧ n ≤ 0xFF ∧ n ≠ 0xD7 ∧ n ≠ 0xF7) ∨
    (0x400 ≤ n ∧ n ≤ 0x481) ∨ (0x48A ≤ n ∧ n ≤ 0x4FF))

/-- `ConversionWorker.sanitize_filename`: transliterate, keep only
alphanumeric characters, substitute `"untitled"` for an empty remainder,
then lowercase. -/
def sanitize_filename (filename : String) : String :=
  let transliterated := transliterate filename
  let stripped := String.mk (transliterated.data.filter pyIsAlnum)
  let named := if stripped = "" then "untitled" else stripped
  pyStrLower named

/-- The character is an ASCII lowercase letter or an ASCII digit. -/
def isAsciiLowerDigit (c : Char) : Bool :=
  decide (('a' ≤ c ∧ c ≤ 'z') ∨ ('0' ≤ c ∧ c ≤ '9'))

/-- Every character of the string is in `[a-z0-9]`. -/
def asciiLowerDigitOnly (s : String) : Bool :=
  s.data.all isAsciiLowerDigit

/-- The inputs over which the spec's sanitizer guarantee is provable: the
128 ASCII code points together with the 66 Cyrillic letters of the
transliteration table. -/
def asciiAndCyrillicChars : List Char :=
  (List.range 128).map Char.ofNat ++ translitPairs.map Prod.fst

/-- `MAX_SAMPLE_RATE` from `converter_app.py`. -/
def MAX_SAMPLE_RATE : Int := 48000

/-- `LOSSY_CODECS` from `converter_app.py` (a Python set; order irrelevant). -/
def LOSSY_CODECS : List String :=
  ["mp3", "mp2", "aac", "opus", "vorbis", "wma", "wmav1", "wmav2", "ac3", "eac3"]

/-- `LOSSY_EXTENSIONS` from `converter_app.py` (a Python set; order irrelevant). -/
def LOSSY_EXTENSIONS : List String :=
  ["mp3", "mp2", "aac", "m4a", "ogg", "opus", "wma"]

/-- The digit-run capture of `re.match(r'[su](\d+)', fmt)` fed through
`_parse_int`: a leading `s`/`u` followed by at least one digit yields the
value of the maximal digit run. -/
def suDigitsValue (fmt : String) : Option Int :=
  match fmt.data with
  | [] => none
  | c :: rest =>
    if c = 's' ∨ c = 'u' then
      let ds := rest.takeWhile Char.isDigit
      if ds ≠ [] then _parse_int (some (String.mk ds)) else none
    else none

/-- `ConversionWorker._sample_fmt_to_bit_depth`: absent or empty format →
unknown; `s`/`u` + digits → that many bits; `flt*` → 32; `dbl*` → 64;
anything else → unknown. -/
def _sample_fmt_to_bit_depth (sample_fmt : Option String) : Option Int :=
  match sample_fmt with
  | none => none
  | some fmt =>
    if fmt = "" then none
    else
      match (if strStartsWith fmt "s" || strStartsWith fmt "u" then suDigitsValue fmt else none) with
      | some n => some n
      | none =>
        if strStartsWith fmt "flt" then some 32
        else if strStartsWith fmt "dbl" then some 64
        else none

/-- `ConversionWorker._needs_16bit`: a reported bit depth decides alone;
otherwise a depth inferred from the sample format decides; otherwise
`true`. -/
def _needs_16bit (bit_depth : Option Int) (sample_fmt : Option String) : Bool :=
  match bit_depth with
  | some d => decide (d > 16)
  | none =>
    match _sample_fmt_to_bit_depth sample_fmt with
    | some inferred => decide (inferred > 16)
    | none => true

/-- `ConversionWorker._needs_resample`:
`sample_rate is not None and sample_rate > MAX_SAMPLE_RATE`. -/
def _needs_resample (sample_rate : Option Int) : Bool :=
  match sample_rate with
  | some r => decide (r > MAX_SAMPLE_RATE)
  | none => false

/-- The resample target the orchestrator passes to ffmpeg (`run`, the
`-ar` flag): `MAX_SAMPLE_RATE` exactly when `_needs_resample` holds. -/
def resample_target (sample_rate : Option Int) : Option Int :=
  if _needs_resample sample_rate then some MAX_SAMPLE_RATE else none

/-- `ConversionWorker._should_apply_filters`; of the probed record only the
codec name is consulted, so it is taken directly as an argument.
`codec = (audio_info.get("codec_name") or "").lower()`. -/
def _should_apply_filters (audiofile : String) (codec_name : Option String) : Bool :=
  let codec := pyStrLower (codec_name.getD "")
  if LOSSY_CODECS.contains codec then true
  else if LOSSY_EXTENSIONS.contains (lstripDots (pyStrLower (pySuffix audiofile))) then true
  else codec == ""

/-- The bit depth the selector treats as known: the reported depth when
present, else the depth derivable from the sample format.  (The spec's
notion of "known bit depth" for the `forceSixteenBit` decision.) -/
def knownBitDepth (bit_depth : Option Int) (sample_fmt : Option String) : Option Int :=
  match bit_depth with
  | some d => some d
  | none => _sample_fmt_to_bit_depth sample_fmt

/-- C4: `forceSixteenBit` is true unless the bit depth is known (reported,
or derivable from the sample format) and at most 16; depth 24 → true,
depth 16 → false, fully unknown depth → true. -/
theorem needs16bit_true_unless_known_le_16 :
    (∀ bit_depth sample_fmt, _needs_16bit bit_depth sample_fmt = false ↔
      ∃ d, knownBitDepth bit_depth sample_fmt = some d ∧ d ≤ 16) ∧
    _needs_16bit (some 24) none = true ∧
    _needs_16bit (some 16) none = false ∧
    _needs_16bit none none = true := by
  refine ⟨?_, by decide, by decide, by decide⟩
  intro bd fmt
  cases bd with
  | some d =>
    simp [_needs_16bit, knownBitDepth, not_lt]
  | none =>
    cases h : _sample_fmt_to_bit_depth fmt with
    | none => simp [_needs_16bit, knownBitDepth, h]
    | some inferred => simp [_needs_16bit, knownBitDepth, h, not_lt]

/-- C5: the resample target is 48000 iff the sample rate is known and
strictly above 48000; otherwise no target is set; 96000 → some 48000,
44100 → none, unknown → none. -/
theorem resample_target_iff_known_above_cap :
    (∀ sample_rate, resample_target sample_rate = some MAX_SAMPLE_RATE ↔
      ∃ r, sample_rate = some r ∧ r > 48000) ∧
    (∀ sample_rate, resample_target sample_rate = some MAX_SAMPLE_RATE ∨
      resample_target sample_rate = none) ∧
    resample_target (some 96000) = some 48000 ∧
    resample_target (some 44100) = none ∧
    resample_target none = none := by
  refine ⟨?_, ?_, by decide, by decide, by decide⟩
  · intro sr
    cases sr with
    | none => simp [resample_target, _needs_resample]
    | some r =>
      simp [resample_target, _needs_resample, MAX_SAMPLE_RATE]
  · intro sr
    by_cases h : _needs_resample sr = true
    · exact Or.inl (by simp [resample_target, h])
    · exact Or.inr (by simp [resample_target, h])

/-- C1 counterexample: a file whose codec is positively known to be
lossless (`flac`) but whose extension is in the lossy-extension set still
gets `applyRestorationFilters = true`, because the extension test is not
guarded on the codec being unknown.  The claim says filters must be off
for a known-lossless codec regardless of extension. -/
theorem filters_on_for_flac_codec_mp3_ext :
    _should_apply_filters "track.mp3" (some "flac") = true ∧
    LOSSY_CODECS.contains "flac" = false := by
  constructor
  · rfl
  · rfl

/-- C1 (amended): `applyRestorationFilters = true` iff the lowercased codec
name is in the lossy-codec set, OR the file's extension is in the
lossy-extension set (tested regardless of whether the codec is known), OR
the codec name is empty/unknown; with the spec's instances: codec `flac`
with extension `flac` → false, codec `mp3` → true, unknown codec with
extension `mp3` → true. -/
theorem should_apply_filters_characterization :
    (∀ audiofile codec_name, _should_apply_filters audiofile codec_name = true ↔
      (LOSSY_CODECS.contains (pyStrLower (codec_name.getD "")) = true ∨
       LOSSY_EXTENSIONS.contains (lstripDots (pyStrLower (pySuffix audiofile))) = true ∨
       pyStrLower (codec_name.getD "") = "")) ∧
    _should_apply_filters "song.flac" (some "flac") = false ∧
    _should_apply_filters "song.mp3" (some "mp3") = true ∧
    _should_apply_filters "song.mp3" none = true := by
  refine ⟨?_, by decide, by decide, by decide⟩
  intro audiofile codec_name
  by_cases h1 : LOSSY_CODECS.contains (pyStrLower (codec_name.getD "")) = true
  · simp [_should_apply_filters, h1]
  · by_cases h2 :
      LOSSY_EXTENSIONS.contains (lstripDots (pyStrLower (pySuffix audiofile))) = true
    · simp [_should_apply_filters, h1, h2]
    · simp [_should_apply_filters, h1, h2]

set_option maxRecDepth 4000 in
/-- Helper for the sanitizer: over ASCII and the transliterated Cyrillic
alphabet, every character that survives the alphanumeric filter lowercases
into `[a-z0-9]`. -/
theorem translit_filter_char_lower :
    ∀ c ∈ asciiAndCyrillicChars,
      pyIsAlnum (translitChar c) = true →
        isAsciiLowerDigit (pyCharLower (translitChar c)) = true := by decide

/-- C3 counterexample: the stripping step keeps every Unicode-alphanumeric
character, not only ASCII ones, so `é` survives sanitization unchanged and
the output is neither `[a-z0-9]`-only nor `"untitled"`; moreover the
literal `"untitled"` is also returned for an input whose stripped result
is nonempty (`"Untitled"`), so it is not returned exactly when the
stripped result is empty. -/
theorem sanitize_not_ascii_only :
    sanitize_filename "é" = "é" ∧
    asciiLowerDigitOnly "é" = false ∧
    sanitize_filename "é" ≠ "untitled" ∧
    sanitize_filename "Untitled" = "untitled" ∧
    (transliterate "Untitled").data.filter pyIsAlnum ≠ [] := by decide

/-- C3 (amended): for every input string of ASCII and Cyrillic-alphabet
characters the sanitizer returns a string consisting only of `[a-z0-9]`,
or the literal `"untitled"`; and whenever the stripped result is empty it
returns `"untitled"`.  (The function is a pure total Lean function by
construction.) -/
theorem sanitize_filename_ascii_lower (s : String)
    (hdom : ∀ c ∈ s.data, c ∈ asciiAndCyrillicChars) :
    (asciiLowerDigitOnly (sanitize_filename s) = true ∨
      sanitize_filename s = "untitled") ∧
    ((transliterate s).data.filter pyIsAlnum = [] →
      sanitize_filename s = "untitled") := by
  have hmk : ∀ l : List Char, (String.mk l).data = l := fun l => rfl
  have huntitled : pyStrLower "untitled" = "untitled" := by decide
  constructor
  · by_cases hempty : (transliterate s).data.filter pyIsAlnum = []
    · right
      simp only [sanitize_filename, hempty]
      simp [huntitled]
    · left
      simp only [sanitize_filename]
      rw [if_neg (by simpa [String.ext_iff] using hempty)]
      simp only [asciiLowerDigitOnly, pyStrLower, hmk, List.all_eq_true]
      intro c hc
      simp only [List.mem_map] at hc
      obtain ⟨c1, hc1, rfl⟩ := hc
      simp only [List.mem_filter, transliterate, hmk, List.mem_map] at hc1
      obtain ⟨⟨c0, hc0, rfl⟩, halnum⟩ := hc1
      exact translit_filter_char_lower c0 (hdom c0 hc0) halnum
  · intro hempty
    simp only [sanitize_filename, hempty]
    simp [huntitled]

/-- C3 witness: the amended sanitizer guarantee applied to the concrete
Cyrillic-and-ASCII input `"Трек 01"`. -/
theorem sanitize_filename_ascii_lower_trek :
    (asciiLowerDigitOnly (sanitize_filename "Трек 01") = true ∨
      sanitize_filename "Трек 01" = "untitled") ∧
    ((transliterate "Трек 01").data.filter pyIsAlnum = [] →
      sanitize_filename "Трек 01" = "untitled") :=
  sanitize_filename_ascii_lower "Трек 01" (by decide)

/-- `needle` occurs as a contiguous substring of `haystack` (Python's
`in` on strings), computed structurally. -/
def containsSub (haystack needle : List Char) : Bool :=
  (List.range (haystack.length + 1)).any (fun i => needle.isPrefixOf (haystack.drop i))

/-- The captured outcome of one ffmpeg subprocess invocation: exit status
and standard-error text. -/
structure ProcResult where
  returncode : Int
  stderr : String
deriving DecidableEq

/-- `ConversionWorker._is_filter_error`: empty/absent diagnostics are not
a filter error; otherwise the lowercased text must contain
`"no such filter"` or `"error initializing filter"`. -/
def _is_filter_error (stderr_text : String) : Bool :=
  if stderr_text = "" then false
  else
    let text := pyStrLower stderr_text
    containsSub text.data "no such filter".data ||
      containsSub text.data "error initializing filter".data

/-- `FILTER_CHAIN_PRIMARY` from `converter_app.py`. -/
def FILTER_CHAIN_PRIMARY : String :=
  "adeclick,adeclip,anequalizer=c0 f=10000 w=1000 g=-5 t=1"

/-- `FILTER_CHAIN_FALLBACK` from `converter_app.py`. -/
def FILTER_CHAIN_FALLBACK : String :=
  "anequalizer=c0 f=10000 w=1000 g=-5 t=1"

/-- The `for fallback in fallback_cmds` loop of
`_run_ffmpeg_with_fallbacks`, instrumented with the list of commands
actually run: each fallback is run in turn, stopping at the first exit
status 0; the loop keeps the last run's result.  `subprocess.run` is
modelled by the oracle `runProc` from argument vectors to results. -/
def runFallbackLoop (runProc : List String → ProcResult) :
    List (List String) → ProcResult → List (List String) →
      ProcResult × List (List String)
  | [], result, ran => (result, ran)
  | fallback :: rest, _, ran =>
    let result := runProc fallback
    if result.returncode = 0 then (result, ran ++ [fallback])
    else runFallbackLoop runProc rest result (ran ++ [fallback])

/-- `ConversionWorker._run_ffmpeg_with_fallbacks`, instrumented with the
list of commands run, in order: run `cmd`; on exit status 0 stop; enter
the fallback loop iff the primary run's stderr matches the filter-error
signature; otherwise stop with the primary result. -/
def _run_ffmpeg_with_fallbacks (runProc : List String → ProcResult)
    (cmd : List String) (fallback_cmds : List (List String)) :
    ProcResult × List (List String) :=
  let result := runProc cmd
  if result.returncode = 0 then (result, [cmd])
  else if _is_filter_error result.stderr then
    runFallbackLoop runProc fallback_cmds result [cmd]
  else (result, [cmd])

/-- A concrete subprocess world for the fallback ladder: the primary chain
fails with a filter error, the reduced chain fails with a non-filter
error, everything else (the no-filter run) succeeds. -/
def ladderOracle : List String → ProcResult := fun c =>
  if c = ["primary"] then ⟨1, "Error initializing filter adeclick"⟩
  else if c = ["reduced"] then ⟨1, "Invalid data found when processing input"⟩
  else ⟨0, ""⟩

/-- C2 counterexample: with the reduced chain failing for a reason that
does not match the filter-error signature, the code still attempts the
no-filter run — the signature is only consulted on the primary failure,
so a non-filter reduced-chain failure is not terminal as the claim
requires. -/
theorem no_filter_run_after_non_filter_failure :
    (_run_ffmpeg_with_fallbacks ladderOracle ["primary"]
      [["reduced"], ["nofilter"]]).2 = [["primary"], ["reduced"], ["nofilter"]] ∧
    _is_filter_error "Invalid data found when processing input" = false := by
  decide

/-- C2 (amended): with fallbacks `[reduced, nofilter]`, the reduced chain
is run iff the primary run fails non-zero with diagnostics matching the
filter-error signature; a primary failure not matching the signature is
terminal (zero fallback runs); and once the reduced chain has been run and
fails non-zero, the no-filter chain is run regardless of whether the
reduced failure matches the signature.  The returned result is that of the
last command run. -/
theorem fallback_ladder_characterization (runProc : List String → ProcResult)
    (cmd f1 f2 : List String) :
    ((runProc cmd).returncode = 0 →
      _run_ffmpeg_with_fallbacks runProc cmd [f1, f2] = (runProc cmd, [cmd])) ∧
    ((runProc cmd).returncode ≠ 0 → _is_filter_error (runProc cmd).stderr = false →
      _run_ffmpeg_with_fallbacks runProc cmd [f1, f2] = (runProc cmd, [cmd])) ∧
    ((runProc cmd).returncode ≠ 0 → _is_filter_error (runProc cmd).stderr = true →
      (runProc f1).returncode = 0 →
      _run_ffmpeg_with_fallbacks runProc cmd [f1, f2] = (runProc f1, [cmd, f1])) ∧
    ((runProc cmd).returncode ≠ 0 → _is_filter_error (runProc cmd).stderr = true →
      (runProc f1).returncode ≠ 0 →
      _run_ffmpeg_with_fallbacks runProc cmd [f1, f2] = (runProc f2, [cmd, f1, f2])) := by
  refine ⟨?_, ?_, ?_, ?_⟩
  · intro h0
    simp [_run_ffmpeg_with_fallbacks, h0]
  · intro h0 hf
    simp [_run_ffmpeg_with_fallbacks, h0, hf]
  · intro h0 hf h1
    simp [_run_ffmpeg_with_fallbacks, runFallbackLoop, h0, hf, h1]
  · intro h0 hf h1
    by_cases h2 : (runProc f2).returncode = 0 <;>
      simp [_run_ffmpeg_with_fallbacks, runFallbackLoop, h0, hf, h1, h2]

/-- C2 witness: the amended ladder characterization applied to the
concrete world `ladderOracle`, exercising the full three-command ladder. -/
theorem fallback_ladder_characterization_ladderOracle :
    _run_ffmpeg_with_fallbacks ladderOracle ["primary"] [["reduced"], ["nofilter"]]
      = (ladderOracle ["nofilter"], [["primary"], ["reduced"], ["nofilter"]]) :=
  (fallback_ladder_characterization ladderOracle ["primary"] ["reduced"]
    ["nofilter"]).2.2.2 (by decide) (by decide) (by decide)

/-- `os.path.join(root, name)` for an absolute `root` with no trailing
slash and a relative `name` — the only shapes `run` builds. -/
def pathJoin (root name : String) : String :=
  root ++ "/" ++ name

/-- The candidate output path the collision loop of `run` examines at
attempt `n`: attempt 0 is `root/base.wav`; attempt `n ≥ 1` appends the
counter `n`, directly for the base `"untitled"` and with an underscore
for every other base. -/
def wav_candidate (root base : String) : Nat → String
  | 0 => pathJoin root (base ++ ".wav")
  | k + 1 =>
    if base = "untitled" then pathJoin root ("untitled" ++ toString (k + 1) ++ ".wav")
    else pathJoin root (base ++ "_" ++ toString (k + 1) ++ ".wav")

/-- The `while os.path.exists(wavfile)` loop of `run`, phrased over the
index of the current candidate and with explicit fuel (the Python loop
has none and would spin forever on a filesystem where every candidate
exists); `os.path.exists` is the oracle `pathExists`, re-consulted on
every candidate. -/
def resolveFrom (pathExists : String → Bool) (root base : String) :
    Nat → Nat → String
  | 0, i => wav_candidate root base i
  | fuel + 1, i =>
    if pathExists (wav_candidate root base i) then
      resolveFrom pathExists root base fuel (i + 1)
    else wav_candidate root base i

/-- The collision-resolution step of `run` for one file: start at
`root/base.wav` and keep bumping the numeric suffix while the candidate
exists. -/
def resolve_output_path (pathExists : String → Bool) (root base : String)
    (fuel : Nat) : String :=
  resolveFrom pathExists root base fuel 0

/-- Helper: from index `i`, if every candidate strictly before index `n`
(and at or past `i`) exists and candidate `n` does not, the loop stops at
candidate `n`. -/
theorem resolveFrom_eq_first_free (pathExists : String → Bool)
    (root base : String) (n : Nat) :
    ∀ fuel i, i ≤ n → n - i < fuel →
      pathExists (wav_candidate root base n) = false →
      (∀ m, i ≤ m → m < n → pathExists (wav_candidate root base m) = true) →
      resolveFrom pathExists root base fuel i = wav_candidate root base n := by
  intro fuel
  induction fuel with
  | zero => intro i _ hlt; omega
  | succ fuel ih =>
    intro i hin hfuel hfree hbusy
    by_cases hi : i = n
    · subst hi
      simp [resolveFrom, hfree]
    · have hlt : i < n := lt_of_le_of_ne hin hi
      have hbusy_i : pathExists (wav_candidate root base i) = true :=
        hbusy i le_rfl hlt
      simp only [resolveFrom, hbusy_i, if_true]
      exact ih (i + 1) hlt (by omega) hfree
        (fun m hm1 hm2 => hbusy m (by omega) hm2)

/-- Helper: under the same conditions the resolved path does not exist. -/
theorem resolve_output_path_free (pathExists : String → Bool)
    (root base : String) (n fuel : Nat)
    (hfuel : n < fuel)
    (hfree : pathExists (wav_candidate root base n) = false)
    (hbusy : ∀ m, m < n → pathExists (wav_candidate root base m) = true) :
    pathExists (resolve_output_path pathExists root base fuel) = false := by
  have h := resolveFrom_eq_first_free pathExists root base n fuel 0
    (Nat.zero_le n) (by omega) hfree (fun m _ hm2 => hbusy m hm2)
  rw [resolve_output_path, h]
  exact hfree

/-- C6: the Collision Resolver returns the first candidate of the
sequence `base.wav, base_1.wav, base_2.wav, …` (`untitled.wav,
untitled1.wav, untitled2.wav, …` for the base `"untitled"`, the suffix
appended without an underscore) that does not exist; and since existence
is re-checked on every candidate, a second call against a filesystem on
which the first result has been materialized returns a distinct path. -/
theorem collision_resolver_first_free (pathExists pathExists2 : String → Bool)
    (root base : String) (n n2 fuel fuel2 : Nat)
    (hfuel : n < fuel)
    (hfree : pathExists (wav_candidate root base n) = false)
    (hbusy : ∀ m, m < n → pathExists (wav_candidate root base m) = true)
    (hfuel2 : n2 < fuel2)
    (hfree2 : pathExists2 (wav_candidate root base n2) = false)
    (hbusy2 : ∀ m, m < n2 → pathExists2 (wav_candidate root base m) = true)
    (hmat : pathExists2 (resolve_output_path pathExists root base fuel) = true) :
    resolve_output_path pathExists root base fuel = wav_candidate root base n ∧
    resolve_output_path pathExists2 root base fuel2 = wav_candidate root base n2 ∧
    resolve_output_path pathExists2 root base fuel2 ≠
      resolve_output_path pathExists root base fuel := by
  refine ⟨?_, ?_, ?_⟩
  · exact resolveFrom_eq_first_free pathExists root base n fuel 0
      (Nat.zero_le n) (by omega) hfree (fun m _ hm2 => hbusy m hm2)
  · exact resolveFrom_eq_first_free pathExists2 root base n2 fuel2 0
      (Nat.zero_le n2) (by omega) hfree2 (fun m _ hm2 => hbusy2 m hm2)
  · intro heq
    have hfree' := resolve_output_path_free pathExists2 root base n2 fuel2
      hfuel2 hfree2 hbusy2
    rw [heq] at hfree'
    rw [hfree'] at hmat
    exact Bool.false_ne_true hmat

/-- C6 witness: with `d/a.wav` on disk the resolver yields `d/a_1.wav`;
after that result is materialized a second call yields `d/a_2.wav`, a
distinct path. -/
theorem collision_resolver_first_free_concrete :
    resolve_output_path (fun s => s == "d/a.wav") "d" "a" 2
      = wav_candidate "d" "a" 1 ∧
    resolve_output_path (fun s => s == "d/a.wav" || s == "d/a_1.wav") "d" "a" 3
      = wav_candidate "d" "a" 2 ∧
    resolve_output_path (fun s => s == "d/a.wav" || s == "d/a_1.wav") "d" "a" 3 ≠
      resolve_output_path (fun s => s == "d/a.wav") "d" "a" 2 :=
  collision_resolver_first_free (fun s => s == "d/a.wav")
    (fun s => s == "d/a.wav" || s == "d/a_1.wav") "d" "a" 1 2 2 3
    (by decide) (by decide) (by decide) (by decide) (by decide) (by decide)
    (by decide)

/-- C10: the resolved output path is never the path of a file that exists
on disk at resolution time — in particular never the source file of the
same conversion, which the walk just found on disk: every existing
candidate, the source included, bumps the numeric suffix. -/
theorem output_path_never_source (pathExists : String → Bool)
    (root base src : String) (n fuel : Nat)
    (hfuel : n < fuel)
    (hfree : pathExists (wav_candidate root base n) = false)
    (hbusy : ∀ m, m < n → pathExists (wav_candidate root base m) = true)
    (hsrc : pathExists src = true) :
    resolve_output_path pathExists root base fuel ≠ src := by
  intro heq
  have hfree' := resolve_output_path_free pathExists root base n fuel
    hfuel hfree hbusy
  rw [heq, hsrc] at hfree'
  exact Bool.noConfusion hfree'

/-- C10 witness: the source `d/a.wav` (a pre-existing `.wav` input whose
sanitized base is `a`) is never returned as the output path. -/
theorem output_path_never_source_concrete :
    resolve_output_path (fun s => s == "d/a.wav") "d" "a" 2 ≠ "d/a.wav" :=
  output_path_never_source (fun s => s == "d/a.wav") "d" "a" "d/a.wav" 1 2
    (by decide) (by decide) (by decide) (by decide)

/-- A per-file conversion outcome (`ConversionOutcome` of the spec). -/
inductive Outcome
  | success
  | failure
deriving DecidableEq

/-- `os.path.getsize`, which raises `OSError` on a missing path; the
output file's state on disk after the transcoder ran is the pair
`(wavExists, wavSize)`. -/
def pyGetSize (wavExists : Bool) (wavSize : Nat) : Except Unit Nat :=
  if wavExists then Except.ok wavSize else Except.error ()

/-- The success test of `run`:
`result.returncode == 0 and os.path.getsize(wavfile) > 0`, with Python's
short-circuit `and` — the size is consulted (and can only raise) when the
exit status is 0. -/
def successTest (returncode : Int) (wavExists : Bool) (wavSize : Nat) :
    Except Unit Bool :=
  if returncode = 0 then (pyGetSize wavExists wavSize).map (fun sz => decide (sz > 0))
  else Except.ok false

/-- What one file's verification/cleanup did: the outcome, whether the
original source file was removed, whether the (partial) output file was
removed, and the tally increments. -/
structure FileStep where
  outcome : Outcome
  sourceRemoved : Bool
  outputRemoved : Bool
  successDelta : Nat
  errorDelta : Nat
deriving DecidableEq

/-- The verification and cleanup of `run` after the transcoder ran: a true
test removes the source and bumps successCount; a false test removes the
output if it exists and bumps errorCount; a raised `OSError` is caught by
the per-file `except`, which bumps errorCount without touching either
file. -/
def verify_and_cleanup (returncode : Int) (wavExists : Bool) (wavSize : Nat) :
    FileStep :=
  match successTest returncode wavExists wavSize with
  | Except.ok true => ⟨Outcome.success, true, false, 1, 0⟩
  | Except.ok false => ⟨Outcome.failure, false, wavExists, 0, 1⟩
  | Except.error _ => ⟨Outcome.failure, false, false, 0, 1⟩

/-- C7: the outcome is Success iff the exit status is 0 AND the output
file exists with non-zero size; the source is removed exactly on success,
a present output file is removed exactly on failure, and exactly one of
the two counters is incremented, matching the outcome. -/
theorem per_file_outcome_characterization :
    ∀ (returncode : Int) (wavExists : Bool) (wavSize : Nat),
      decide ((verify_and_cleanup returncode wavExists wavSize).outcome = Outcome.success)
          = (decide (returncode = 0) && wavExists && decide (wavSize > 0)) ∧
      (verify_and_cleanup returncode wavExists wavSize).sourceRemoved
          = decide ((verify_and_cleanup returncode wavExists wavSize).outcome = Outcome.success) ∧
      (verify_and_cleanup returncode wavExists wavSize).outputRemoved
          = (decide ((verify_and_cleanup returncode wavExists wavSize).outcome = Outcome.failure)
              && wavExists) ∧
      (verify_and_cleanup returncode wavExists wavSize).successDelta
          = (if (verify_and_cleanup returncode wavExists wavSize).outcome = Outcome.success
             then 1 else 0) ∧
      (verify_and_cleanup returncode wavExists wavSize).errorDelta
          = (if (verify_and_cleanup returncode wavExists wavSize).outcome = Outcome.failure
             then 1 else 0) := by
  intro returncode wavExists wavSize
  by_cases h0 : returncode = 0 <;> cases wavExists <;> by_cases hs : wavSize > 0 <;>
    simp [verify_and_cleanup, successTest, pyGetSize, Except.map, h0, hs]

/-- The probed audio properties (`AudioProperties` of the spec): the dict
`_probe_audio_with_ffprobe` / `_probe_audio_with_ffmpeg` build, every
field optional. -/
structure AudioInfo where
  sample_rate : Option Int
  sample_fmt : Option String
  bit_depth : Option Int
  codec_name : Option String
deriving DecidableEq

/-- The all-unknown record `_get_audio_info` falls back to. -/
def unknownAudioInfo : AudioInfo :=
  ⟨none, none, none, none⟩

/-- The first stream object of ffprobe's JSON reply: the five requested
entries, each possibly absent (JSON numbers arrive as strings in
ffprobe's stream output). -/
structure FfprobeStream where
  sample_rate : Option String
  sample_fmt : Option String
  bits_per_raw_sample : Option String
  bit_depth : Option String
  codec_name : Option String

/-- One completed ffprobe invocation: exit status, whether stdout was
blank (`not result.stdout.strip()`), and the parsed `"streams"` array
(`none` models stdout that `json.loads` rejects — that exception, like
any other, is caught by the function's `except`). -/
structure FfprobeRun where
  returncode : Int
  stdoutBlank : Bool
  streams : Option (List FfprobeStream)

/-- `ConversionWorker._probe_audio_with_ffprobe`: `none` when ffprobe is
absent, when invoking it raises, when it exits non-zero or prints
nothing, when its output is unparseable, or when no stream is reported;
otherwise the record assembled from the first stream, the bit depth taken
from `bits_per_raw_sample`, then `bit_depth`, then the sample format. -/
def _probe_audio_with_ffprobe (ffprobeUsable : Bool)
    (invoke : Except Unit FfprobeRun) : Option AudioInfo :=
  if !ffprobeUsable then none
  else
    match invoke with
    | Except.error _ => none
    | Except.ok r =>
      if r.returncode ≠ 0 ∨ r.stdoutBlank then none
      else
        match r.streams with
        | none => none
        | some [] => none
        | some (stream :: _) =>
          let bd0 := _parse_int stream.bits_per_raw_sample
          let bd1 := match bd0 with
            | some d => some d
            | none => _parse_int stream.bit_depth
          let bd2 := match bd1 with
            | some d => some d
            | none => _sample_fmt_to_bit_depth stream.sample_fmt
          some ⟨_parse_int stream.sample_rate, stream.sample_fmt, bd2,
            stream.codec_name⟩

/-- Python `str.splitlines` for `\n`-separated text (the line separator
ffmpeg emits on POSIX): accumulate the current line and emit it at each
newline; a trailing fragment is emitted only if nonempty. -/
def splitLinesAux : List Char → List Char → List (List Char)
  | [], acc => if acc = [] then [] else [acc.reverse]
  | c :: rest, acc =>
    if c = '\n' then acc.reverse :: splitLinesAux rest []
    else splitLinesAux rest (c :: acc)

/-- See `splitLinesAux`. -/
def splitLines (cs : List Char) : List (List Char) :=
  splitLinesAux cs []

/-- The first line of the diagnostic text containing `"Audio:"` (the
`for line in text.splitlines()` scan). -/
def firstAudioLine (text : String) : Option (List Char) :=
  (splitLines text.data).find? (fun line => containsSub line "Audio:".data)

/-- `re.search(r'(\d+)\s*Hz', line)` tried at one position: a nonempty
maximal digit run, then optional whitespace, then `"Hz"`.  (A shorter,
backtracked digit run can never succeed where the maximal one fails,
since the following character would be a digit, not `H`.) -/
def hzMatchAt (cs : List Char) : Option (List Char) :=
  let ds := cs.takeWhile Char.isDigit
  if ds = [] then none
  else
    let rest := (cs.drop ds.length).dropWhile Char.isWhitespace
    if "Hz".data.isPrefixOf rest then some ds else none

/-- Leftmost-match search for `(\d+)\s*Hz`. -/
def searchHz : List Char → Option (List Char)
  | [] => none
  | c :: rest =>
    match hzMatchAt (c :: rest) with
    | some ds => some ds
    | none => searchHz rest

/-- A regex word character as it occurs in ffmpeg's ASCII diagnostics:
`[A-Za-z0-9_]`. -/
def isWordChar (c : Char) : Bool :=
  decide (('a' ≤ c ∧ c ≤ 'z') ∨ ('A' ≤ c ∧ c ≤ 'Z') ∨ ('0' ≤ c ∧ c ≤ '9') ∨ c = '_')

/-- The trailing `\b` of the sample-format pattern: end of line or a
non-word character next. -/
def fmtBoundaryOk (rest : List Char) : Bool :=
  match rest with
  | [] => true
  | c :: _ => !isWordChar c

/-- The candidate tokens of `\b(s\d{1,2}p?|u\d{1,2}|flt|fltp|dbl|dblp)\b`
at one position, in the engine's preference order (alternatives left to
right, `\d{1,2}` and `p?` greedy, the trailing `\b` forcing backtracking
from `flt` to `fltp` and `dbl` to `dblp`). -/
def fmtCandidatesAt (cs : List Char) : List (List Char) :=
  match cs with
  | 's' :: rest =>
    (match (rest.takeWhile Char.isDigit).take 2 with
     | [d1, d2] => [['s', d1, d2, 'p'], ['s', d1, d2], ['s', d1, 'p'], ['s', d1]]
     | [d1] => [['s', d1, 'p'], ['s', d1]]
     | _ => [])
  | 'u' :: rest =>
    (match (rest.takeWhile Char.isDigit).take 2 with
     | [d1, d2] => [['u', d1, d2], ['u', d1]]
     | [d1] => [['u', d1]]
     | _ => [])
  | 'f' :: _ => [['f', 'l', 't'], ['f', 'l', 't', 'p']]
  | 'd' :: _ => [['d', 'b', 'l'], ['d', 'b', 'l', 'p']]
  | _ => []

/-- The first candidate that is actually present at this position and is
followed by a word boundary. -/
def fmtMatchAt (cs : List Char) : Option (List Char) :=
  (fmtCandidatesAt cs).find?
    (fun tok => tok.isPrefixOf cs && fmtBoundaryOk (cs.drop tok.length))

/-- Leftmost-match search for the sample-format pattern; `prevWord` says
whether the previous character was a word character (the leading `\b` —
every candidate token starts with a word character, so a match position
must not follow one). -/
def searchFmtAux : List Char → Bool → Option (List Char)
  | [], _ => none
  | c :: rest, prevWord =>
    match (if prevWord then none else fmtMatchAt (c :: rest)) with
    | some tok => some tok
    | none => searchFmtAux rest (isWordChar c)

/-- `ConversionWorker._probe_audio_with_ffmpeg`: scan the diagnostic text
(`result.stderr or result.stdout or ""`, passed combined) for the first
`Audio:` line; extract the sample rate and sample format by the two
regex searches and derive the bit depth from the format; the codec name
is never filled in; `none` when no `Audio:` line exists or the
invocation raised. -/
def _probe_audio_with_ffmpeg (invoke : Except Unit String) : Option AudioInfo :=
  match invoke with
  | Except.error _ => none
  | Except.ok text =>
    match firstAudioLine text with
    | none => none
    | some line =>
      let sample_rate := match searchHz line with
        | some ds => _parse_int (some (String.mk ds))
        | none => none
      let sample_fmt := (searchFmtAux line false).map String.mk
      let bit_depth := _sample_fmt_to_bit_depth sample_fmt
      some ⟨sample_rate, sample_fmt, bit_depth, none⟩

/-- `ConversionWorker._get_audio_info`: the ffprobe strategy, then the
ffmpeg-banner strategy, then the all-unknown record; the subprocess
worlds of the two strategies are the oracle arguments. -/
def _get_audio_info (ffprobeUsable : Bool) (probeInvoke : Except Unit FfprobeRun)
    (ffmpegInvoke : Except Unit String) : AudioInfo :=
  match _probe_audio_with_ffprobe ffprobeUsable probeInvoke with
  | some info => info
  | none =>
    match _probe_audio_with_ffmpeg ffmpegInvoke with
    | some info => info
    | none => unknownAudioInfo

/-- C8: the Audio Prober is total and never propagates an error — an
invocation that raises yields `none` for that strategy; a failed primary
strategy falls through to the secondary; and when both strategies yield
nothing the result is the all-unknown record. -/
theorem prober_total_fallthrough :
    (∀ ffprobeUsable probeInvoke ffmpegInvoke,
      _probe_audio_with_ffprobe ffprobeUsable probeInvoke = none →
      _probe_audio_with_ffmpeg ffmpegInvoke = none →
      _get_audio_info ffprobeUsable probeInvoke ffmpegInvoke = unknownAudioInfo) ∧
    (∀ ffprobeUsable probeInvoke ffmpegInvoke info,
      _probe_audio_with_ffprobe ffprobeUsable probeInvoke = some info →
      _get_audio_info ffprobeUsable probeInvoke ffmpegInvoke = info) ∧
    (∀ ffprobeUsable probeInvoke ffmpegInvoke info,
      _probe_audio_with_ffprobe ffprobeUsable probeInvoke = none →
      _probe_audio_with_ffmpeg ffmpegInvoke = some info →
      _get_audio_info ffprobeUsable probeInvoke ffmpegInvoke = info) ∧
    (∀ ffprobeUsable,
      _probe_audio_with_ffprobe ffprobeUsable (Except.error ()) = none ∧
      _probe_audio_with_ffmpeg (Except.error ()) = none) := by
  refine ⟨?_, ?_, ?_, ?_⟩
  · intro u pI fI h1 h2
    simp [_get_audio_info, h1, h2]
  · intro u pI fI info h1
    simp [_get_audio_info, h1]
  · intro u pI fI info h1 h2
    simp [_get_audio_info, h1, h2]
  · intro u
    refine ⟨?_, rfl⟩
    cases u <;> rfl

/-- C8 witness: both strategies raising yields the all-unknown record. -/
theorem prober_total_fallthrough_raises :
    _get_audio_info true (Except.error ()) (Except.error ()) = unknownAudioInfo :=
  prober_total_fallthrough.1 true (Except.error ()) (Except.error ()) rfl rfl

/-- `suf` is a suffix of `s` (Python `str.endswith`), computed
structurally. -/
def strEndsWith (s suf : String) : Bool :=
  suf.data.isSuffixOf s.data

/-- The supported-extensions list `audio_extensions` of `run`, in source
order. -/
def audio_extensions : List String :=
  ["mp3", "wav", "aac", "m4a", "flac", "ogg", "wma", "aiff", "alac", "tak"]

/-- The per-file selection test of the walk:
`file.lower().endswith(f'.{ext}')`. -/
def matchesExt (file ext : String) : Bool :=
  strEndsWith (pyStrLower file) ("." ++ ext)

/-- The walk of `run`, for one directory's file list: the outer loop
ranges over the extension list, the inner loop over the files; every
match enters the conversion branch (sanitize, resolve, probe, transcode)
— the code has no guard that exempts files already in the target
format. -/
def filesToConvert (files : List String) : List String :=
  audio_extensions.foldr
    (fun ext acc => files.filter (fun f => matchesExt f ext) ++ acc) []

/-- Helper: membership in the extension-grouped walk output. -/
theorem mem_extension_fold (exts files : List String) (f : String) :
    f ∈ exts.foldr (fun ext acc => files.filter (fun g => matchesExt g ext) ++ acc) [] ↔
      f ∈ files ∧ exts.any (fun ext => matchesExt f ext) = true := by
  induction exts with
  | nil => simp
  | cons e rest ih =>
    simp only [List.foldr_cons, List.mem_append, List.mem_filter, ih,
      List.any_cons, Bool.or_eq_true]
    constructor
    · rintro (⟨hf, he⟩ | ⟨hf, hrest⟩)
      · exact ⟨hf, Or.inl he⟩
      · exact ⟨hf, Or.inr hrest⟩
    · rintro ⟨hf, he | hrest⟩
      · exact Or.inl ⟨hf, he⟩
      · exact Or.inr ⟨hf, hrest⟩

/-- C9 counterexample: a `.wav` source file is visited by the walk and
enters the conversion branch — it is submitted to the transcoder as a
conversion source, not treated as a no-op: `wav` is in the supported
extension list and the walk selects `song.wav` for conversion. -/
theorem wav_file_selected_for_conversion :
    filesToConvert ["song.wav"] = ["song.wav"] ∧
    "wav" ∈ audio_extensions := by decide

/-- C9 (amended): a file enters the conversion branch iff it is in the
walked file list and its lowercased name ends in a dot followed by one of
the supported extensions — `.wav` files included, on a par with every
other extension; there is no guard exempting files already in the
canonical target format. -/
theorem walk_selects_all_supported (files : List String) (f : String) :
    (f ∈ filesToConvert files ↔
      f ∈ files ∧ audio_extensions.any (fun ext => matchesExt f ext) = true) ∧
    (matchesExt f "wav" = true → f ∈ files → f ∈ filesToConvert files) := by
  constructor
  · exact mem_extension_fold audio_extensions files f
  · intro hwav hf
    refine (mem_extension_fold audio_extensions files f).2 ⟨hf, ?_⟩
    simp only [List.any_eq_true]
    exact ⟨"wav", by decide, hwav⟩

/-- C9 witness: `song.wav` matches the `wav` extension and is selected by
the walk of a directory containing it. -/
theorem walk_selects_wav_concrete :
    "song.wav" ∈ filesToConvert ["song.wav"] :=
  (walk_selects_all_supported ["song.wav"] "song.wav").2 (by decide)
    (by decide)
